import Mathlib

/-!
# Verification development for the GREAT-iKalibr data manager and calibration solver

This file gives a shallow embedding, in Lean 4, of the parts of the
iKalibr calibration pipeline that the specification talks about:

* the radar single-target regrouping inside `CalibDataManager::LoadCalibData`
  (`src/src/calib/calib_data_manager.cpp`, lines 199-224);
* the time-window computation and stream trimming of
  `CalibDataManager::AdjustCalibDataSequence` and the re-basing of
  `CalibDataManager::AlignTimestamp`, together with the time accessors;
* the pose-query functions `CurBrToW` / `CurLkToW` / `CurCmToW` / `CurRjToW`,
  `GetScaleType`, `AlignStatesToGravity`, `TryLoadSfMData` (landmark filter)
  and `DownsampleVeta` of `CalibSolver`.

Timestamps are modelled as rational numbers: the C++ code computes with IEEE
doubles, and every claim under study is about the exact arithmetic the code
writes down (subtraction, averaging, comparison against constants), which the
rationals embed faithfully.

Repository helpers that are declared in headers not present in the source
snapshot (`EraseSeqHeadData`, `EraseSeqTailData`, `SamplingWoutReplace2`,
`ObtainAlignedWtoRef`, `TimeStampInRange` of the spline library, and the
`Configor::Is*Integrated` predicates) are modelled from the specification;
each such definition carries a doc comment saying so.
-/

namespace IKalibr

/-! ## Radar single-target regrouping (`LoadCalibData`, lines 199-224)

A raw AWR1843BOOST reading arrives as a `RadarTargetArray` that wraps a single
target; `ts` models `GetTimestamp()` of the wrapping array and `tar` models
`GetTargets().front()->GetTimestamp()` of its unique target. -/

/-- One raw single-target radar reading: the wrapping array's timestamp and
the timestamp carried by its single target. -/
structure RadarReading where
  ts : ℚ
  tar : ℚ
  deriving DecidableEq, Repr

/-- A regrouped radar target array: its assigned timestamp and the timestamps
of its member targets, in push order. -/
structure RadarTargetArray where
  ts : ℚ
  targets : List ℚ
  deriving DecidableEq, Repr

/-- The average-time computation of lines 212-216: `t` starts at `0.0` and the
loop adds `target->GetTimestamp() / targets.size()` for every buffered target. -/
def avgTime (targets : List ℚ) : ℚ :=
  targets.foldl (fun t x => t + x / (targets.length : ℚ)) 0

/-- One iteration of the merge loop of lines 206-221.  State: the buffered
`targets` of the currently open group and the closed `arrays` so far. -/
def mergeStep (st : List ℚ × List RadarTargetArray) (item : RadarReading) :
    List ℚ × List RadarTargetArray :=
  match st with
  | (targets, arrays) =>
    match targets with
    | [] => (targets ++ [item.tar], arrays)
    | t0 :: _ =>
      if |t0 - item.ts| < 1/10 then
        (targets ++ [item.tar], arrays)
      else
        ([item.tar], arrays ++ [⟨avgTime targets, targets⟩])

/-- The whole regrouping of lines 203-222: fold the merge loop over the raw
stream and keep only the closed arrays (the trailing open group in `targets`
is dropped when the loop ends). -/
def mergeRadar (mes : List RadarReading) : List RadarTargetArray :=
  (mes.foldl mergeStep ([], [])).2

/-- `avgTime` computes the arithmetic mean. -/
lemma avgTime_eq_mean (targets : List ℚ) :
    avgTime targets = targets.sum / (targets.length : ℚ) := by
  have h : ∀ (init : ℚ),
      targets.foldl (fun t x => t + x / (targets.length : ℚ)) init =
        init + targets.sum / (targets.length : ℚ) := by
    generalize hn : (targets.length : ℚ) = n
    clear hn
    induction targets with
    | nil => intro init; simp
    | cons a l ih =>
      intro init
      simp only [List.foldl_cons, List.sum_cons, ih]
      ring
  simpa using h 0

/-- While every incoming reading stays within 0.1 s of the first buffered
target, the merge loop keeps extending the open group and closes nothing. -/
lemma mergeStep_foldl_within (t0 : ℚ) (acc : List ℚ) (arrays : List RadarTargetArray)
    (g : List RadarReading)
    (hg : ∀ r ∈ g, |t0 - r.ts| < 1/10) :
    g.foldl mergeStep (t0 :: acc, arrays) =
      ((t0 :: acc) ++ g.map RadarReading.tar, arrays) := by
  induction g generalizing acc with
  | nil => simp
  | cons r rest ih =>
    have hr : |t0 - r.ts| < 1/10 := hg r (by simp)
    simp only [List.foldl_cons, mergeStep, if_pos hr]
    have := ih (acc ++ [r.tar]) (fun x hx => hg x (by simp [hx]))
    simp only [List.cons_append] at this ⊢
    rw [this]
    simp

/-- Claim C1 (amended): in the `LoadCalibData` radar regrouping, consecutive
single-target readings each within 0.1 s of the group's first member, once
followed by a reading at least 0.1 s away from that first member, merge into
exactly one array whose timestamp is the arithmetic mean of the member target
times; the closing reading starts a new group (which, if never closed itself,
is dropped). -/
theorem mergeRadar_merges_group_into_mean_array (r0 : RadarReading)
    (g : List RadarReading) (far : RadarReading)
    (hg : ∀ r ∈ g, |r0.tar - r.ts| < 1/10)
    (hfar : 1/10 ≤ |r0.tar - far.ts|) :
    mergeRadar ((r0 :: g) ++ [far]) =
      [⟨((r0 :: g).map RadarReading.tar).sum / (((r0 :: g).length : ℚ)),
        (r0 :: g).map RadarReading.tar⟩] := by
  have hne : ¬ |r0.tar - far.ts| < 1/10 := not_lt.mpr hfar
  unfold mergeRadar
  have h1 : List.foldl mergeStep ([], []) (r0 :: g) =
      ((r0.tar :: []) ++ g.map RadarReading.tar, []) := by
    rw [List.foldl_cons]
    exact mergeStep_foldl_within r0.tar [] [] g hg
  rw [List.foldl_append, h1]
  simp only [List.foldl_cons, List.foldl_nil, List.nil_append,
    List.singleton_append, mergeStep, if_neg hne]
  simp [avgTime_eq_mean]

/-- Witness for `mergeRadar_merges_group_into_mean_array`: two readings at
0 s and 0.05 s followed by one at 0.2 s produce exactly one array with the
mean timestamp 0.025 s. -/
theorem mergeRadar_merges_group_into_mean_array_witness :
    (∀ r ∈ [RadarReading.mk (1/20) (1/20)], |(0 : ℚ) - r.ts| < 1/10) ∧
      (1/10 : ℚ) ≤ |(0 : ℚ) - (2/10 : ℚ)| ∧
      mergeRadar [⟨0, 0⟩, ⟨1/20, 1/20⟩, ⟨2/10, 2/10⟩] =
        [⟨1/40, [0, 1/20]⟩] := by
  have h1 : ∀ r ∈ [RadarReading.mk (1/20) (1/20)], |(0 : ℚ) - r.ts| < 1/10 := by
    intro r hr
    simp only [List.mem_singleton] at hr
    subst hr
    rw [abs_sub_lt_iff]
    constructor <;> norm_num
  have h2 : (1/10 : ℚ) ≤ |(0 : ℚ) - (2/10 : ℚ)| := by
    rw [le_abs]
    right
    norm_num
  refine ⟨h1, h2, ?_⟩
  have := mergeRadar_merges_group_into_mean_array ⟨0, 0⟩ [⟨1/20, 1/20⟩]
    ⟨2/10, 2/10⟩ (by simpa using h1) h2
  rw [show ([RadarReading.mk 0 0, ⟨1/20, 1/20⟩] ++ [RadarReading.mk (2/10) (2/10)]) =
    [RadarReading.mk 0 0, ⟨1/20, 1/20⟩, ⟨2/10, 2/10⟩] from rfl] at this
  rw [this]
  norm_num

/-- Counterexample to claim C1 as stated: a stream consisting of a single
reading (so: `N = 1` readings, each trivially within 0.1 s of the group's
first member) is regrouped to an empty list of arrays, not to one array,
because the trailing open group is never emitted. -/
theorem mergeRadar_single_reading_no_array_cex :
    mergeRadar [{ ts := 0, tar := 0 }] = [] := rfl

/-- Claim C10: the final open group of the `LoadCalibData` radar regrouping
is never emitted, so a non-empty stream whose readings all lie within 0.1 s
of the first reading regroups to an empty output. -/
theorem mergeRadar_all_within_first_is_empty (r0 : RadarReading)
    (g : List RadarReading)
    (hg : ∀ r ∈ g, |r0.tar - r.ts| < 1/10) :
    mergeRadar (r0 :: g) = [] := by
  unfold mergeRadar
  rw [List.foldl_cons]
  rw [show mergeStep ([], []) r0 = ([r0.tar], []) from rfl]
  rw [mergeStep_foldl_within r0.tar [] [] g hg]

/-- Witness for `mergeRadar_all_within_first_is_empty`: two readings 0.05 s
apart are buffered but never emitted. -/
theorem mergeRadar_all_within_first_is_empty_witness :
    (∀ r ∈ [RadarReading.mk (1/20) (1/20)], |(0 : ℚ) - r.ts| < 1/10) ∧
      mergeRadar [⟨0, 0⟩, ⟨1/20, 1/20⟩] = [] := by
  have h1 : ∀ r ∈ [RadarReading.mk (1/20) (1/20)], |(0 : ℚ) - r.ts| < 1/10 := by
    intro r hr
    simp only [List.mem_singleton] at hr
    subst hr
    rw [abs_sub_lt_iff]
    constructor <;> norm_num
  exact ⟨h1, mergeRadar_all_within_first_is_empty ⟨0, 0⟩ [⟨1/20, 1/20⟩]
    (by simpa using h1)⟩

/-! ## Calibration data manager (`calib_data_manager.cpp`)

Streams are modelled as one list of frames per configured topic; the topic
names play no role in the claims under study, so a stream map is a list of
streams.  The C++ `IMUFrame` and `CameraFrame` carry further payload (angular
velocity / specific force, image data) that no claim mentions; only the
timestamp is embedded. -/

/-- An inertial frame (timestamp only; the inertial readings themselves play
no role in the data-sequence claims). -/
structure IMUFrame where
  ts : ℚ
  deriving DecidableEq, Repr

/-- A lidar frame: its timestamp and the per-point timestamps of its scan. -/
structure LiDARFrame where
  ts : ℚ
  pts : List ℚ
  deriving DecidableEq, Repr

/-- A camera frame (timestamp only). -/
structure CameraFrame where
  ts : ℚ
  deriving DecidableEq, Repr

/-- The mutable state of `CalibDataManager` that the claims talk about. -/
structure CalibDataManager where
  imuMes : List (List IMUFrame)
  radarMes : List (List RadarTargetArray)
  lidarMes : List (List LiDARFrame)
  camMes : List (List CameraFrame)
  rawStartTimestamp : ℚ
  rawEndTimestamp : ℚ
  alignedStartTimestamp : ℚ
  alignedEndTimestamp : ℚ
  deriving DecidableEq, Repr

/-- Modelled from the spec: `Configor::Is*Integrated` (declared outside the
source snapshot) reports whether any topic of that sensor kind is configured;
a sensor kind is integrated exactly when it contributes streams. -/
def isIntegrated {α : Type} (streams : List (List α)) : Bool :=
  !streams.isEmpty

/-- The per-topic loop pattern of the data manager: apply a fallible
operation to every configured topic's entry, aborting the run on the first
failure (a thrown status). -/
def forEachTopic {α β : Type} (f : α → Option β) : List α → Option (List β)
  | [] => some []
  | a :: l =>
    Option.bind (f a) fun b =>
    Option.bind (forEachTopic f l) fun bs =>
    some (b :: bs)

/-- The `std::max_element` over a stream map by first-frame timestamp
(lines 250-256): the largest front timestamp.  `none` models the undefined
behaviour on an empty map or an empty stream. -/
def maxFrontTs {α : Type} (tsf : α → ℚ) (streams : List (List α)) : Option ℚ :=
  Option.bind (forEachTopic List.head? streams) fun heads =>
  (heads.map tsf).max?

/-- The `std::min_element` over a stream map by last-frame timestamp
(lines 257-263): the smallest back timestamp. -/
def minBackTs {α : Type} (tsf : α → ℚ) (streams : List (List α)) : Option ℚ :=
  Option.bind (forEachTopic List.getLast? streams) fun lasts =>
  (lasts.map tsf).min?

/-- Modelled from the spec: `EraseSeqHeadData` (declared in a header not in
the snapshot) trims a stream at the front — it erases the leading frames up
to the first one satisfying the retain predicate, and fails fatally with a
"no intersection" status when no frame satisfies it. -/
def eraseSeqHeadData {α : Type} (p : α → Bool) (seq : List α) : Option (List α) :=
  if (seq.dropWhile fun x => !p x).isEmpty then none
  else some (seq.dropWhile fun x => !p x)

/-- Modelled from the spec: `EraseSeqTailData` trims a stream at the back —
it erases the trailing frames after the last one satisfying the retain
predicate, failing fatally when no frame satisfies it. -/
def eraseSeqTailData {α : Type} (p : α → Bool) (seq : List α) : Option (List α) :=
  if ((seq.reverse.dropWhile fun x => !p x).reverse).isEmpty then none
  else some ((seq.reverse.dropWhile fun x => !p x).reverse)

/-- One topic's trimming inside `AdjustCalibDataSequence`: erase head frames
not strictly after `lo`, then tail frames not strictly before `hi`. -/
def trimStream {α : Type} (tsf : α → ℚ) (lo hi : ℚ) (seq : List α) :
    Option (List α) :=
  Option.bind (eraseSeqHeadData (fun f => decide (lo < tsf f)) seq)
    (eraseSeqTailData fun f => decide (tsf f < hi))

/-- Lines 250-339: raw start = the largest inertial front timestamp, raw end
= the smallest inertial back timestamp, further tightened by the same rule
over radar, lidar and camera streams whenever those sensors are integrated. -/
def computeRawTimeWindow (m : CalibDataManager) : Option (ℚ × ℚ) :=
  Option.bind (maxFrontTs IMUFrame.ts m.imuMes) fun s0 =>
  Option.bind (minBackTs IMUFrame.ts m.imuMes) fun e0 =>
  Option.bind
    (if isIntegrated m.radarMes then
      Option.bind (maxFrontTs RadarTargetArray.ts m.radarMes) fun a =>
      Option.bind (minBackTs RadarTargetArray.ts m.radarMes) fun b =>
      some (max s0 a, min e0 b)
    else some (s0, e0)) fun w1 =>
  Option.bind
    (if isIntegrated m.lidarMes then
      Option.bind (maxFrontTs LiDARFrame.ts m.lidarMes) fun a =>
      Option.bind (minBackTs LiDARFrame.ts m.lidarMes) fun b =>
      some (max w1.1 a, min w1.2 b)
    else some w1) fun w2 =>
  Option.bind
    (if isIntegrated m.camMes then
      Option.bind (maxFrontTs CameraFrame.ts m.camMes) fun a =>
      Option.bind (minBackTs CameraFrame.ts m.camMes) fun b =>
      some (max w2.1 a, min w2.2 b)
    else some w2) fun w3 =>
  some w3

/-- `CalibDataManager::AdjustCalibDataSequence` (lines 232-424): compute the
raw time window, then trim every stream to it — inertial streams against the
window itself, radar / lidar / camera streams against the window inset by
twice the time-offset padding `pad` on each side. -/
def adjustCalibDataSequence (pad : ℚ) (m : CalibDataManager) :
    Option CalibDataManager :=
  Option.bind (computeRawTimeWindow m) fun w =>
  Option.bind (forEachTopic (trimStream IMUFrame.ts w.1 w.2) m.imuMes) fun imu =>
  Option.bind (forEachTopic
    (trimStream RadarTargetArray.ts (w.1 + 2*pad) (w.2 - 2*pad)) m.radarMes) fun radar =>
  Option.bind (forEachTopic
    (trimStream LiDARFrame.ts (w.1 + 2*pad) (w.2 - 2*pad)) m.lidarMes) fun lidar =>
  Option.bind (forEachTopic
    (trimStream CameraFrame.ts (w.1 + 2*pad) (w.2 - 2*pad)) m.camMes) fun cam =>
  some { m with
    imuMes := imu, radarMes := radar, lidarMes := lidar, camMes := cam,
    rawStartTimestamp := w.1, rawEndTimestamp := w.2 }

/-- `CalibDataManager::AlignTimestamp` (lines 426-461): subtract the raw
start timestamp from every frame timestamp and every sub-measurement
timestamp, set the aligned start to `0.0` and the aligned end to
`rawEnd - rawStart`. -/
def alignTimestamp (m : CalibDataManager) : CalibDataManager :=
  let r := m.rawStartTimestamp
  { m with
    imuMes := m.imuMes.map (List.map fun f => ⟨f.ts - r⟩),
    radarMes := m.radarMes.map (List.map fun a =>
      ⟨a.ts - r, a.targets.map (· - r)⟩),
    lidarMes := m.lidarMes.map (List.map fun f =>
      ⟨f.ts - r, f.pts.map (· - r)⟩),
    camMes := m.camMes.map (List.map fun f => ⟨f.ts - r⟩),
    alignedStartTimestamp := 0,
    alignedEndTimestamp := m.rawEndTimestamp - m.rawStartTimestamp }

/-- `GetCalibStartTimestamp` (lines 516-518). -/
def getCalibStartTimestamp (pad : ℚ) (m : CalibDataManager) : ℚ :=
  m.alignedStartTimestamp + pad

/-- `GetCalibEndTimestamp` (lines 520-522). -/
def getCalibEndTimestamp (pad : ℚ) (m : CalibDataManager) : ℚ :=
  m.alignedEndTimestamp - pad

/-- The smallest frame timestamp over all inertial streams. -/
def minInertialTs (m : CalibDataManager) : Option ℚ :=
  ((m.imuMes.map (List.map IMUFrame.ts)).flatten).min?

/-- A stream is time-ordered (spec, data model: "All frames within a stream
are time-ordered"). -/
def TsSorted {α : Type} (tsf : α → ℚ) (s : List α) : Prop :=
  s.Pairwise fun x y => tsf x ≤ tsf y

/-- The first element surviving a `dropWhile` of the elements failing `p`
satisfies `p`. -/
lemma head_sat_dropWhile {α : Type} (p : α → Bool) (l : List α) :
    ∀ x, ((l.dropWhile fun a => !p a).head? = some x) → p x = true := by
  induction l with
  | nil => intro x hx; simp [List.dropWhile] at hx
  | cons a l ih =>
    intro x hx
    rw [List.dropWhile_cons] at hx
    by_cases h : p a
    · simp only [h, Bool.not_true, Bool.false_eq_true, if_false,
        List.head?_cons, Option.some.injEq] at hx
      subst hx
      exact h
    · simp only [Bool.not_eq_true] at h
      simp only [h, Bool.not_false, if_true] at hx
      exact ih x hx

/-- A successful head-trim keeps only frames strictly after `lo`, and keeps
the stream time-ordered. -/
lemma eraseSeqHeadData_bounds {α : Type} (tsf : α → ℚ) (lo : ℚ)
    (seq r : List α) (hs : TsSorted tsf seq)
    (h : eraseSeqHeadData (fun f => decide (lo < tsf f)) seq = some r) :
    (∀ x ∈ r, lo < tsf x) ∧ TsSorted tsf r := by
  unfold eraseSeqHeadData at h
  split_ifs at h with he
  cases h
  have hsub : List.Sublist (seq.dropWhile fun x => !decide (lo < tsf x)) seq :=
    List.dropWhile_sublist _
  have hsort : TsSorted tsf (seq.dropWhile fun x => !decide (lo < tsf x)) :=
    List.Pairwise.sublist hsub hs
  refine ⟨?_, hsort⟩
  intro x hx
  obtain ⟨h0, t, heq⟩ : ∃ h0 t,
      (seq.dropWhile fun x => !decide (lo < tsf x)) = h0 :: t := by
    cases hd : seq.dropWhile fun x => !decide (lo < tsf x) with
    | nil => rw [hd] at he; simp at he
    | cons h0 t => exact ⟨h0, t, rfl⟩
  have hh0 : lo < tsf h0 := by
    have := head_sat_dropWhile (fun f => decide (lo < tsf f)) seq h0
      (by rw [heq]; rfl)
    exact of_decide_eq_true this
  rw [heq] at hx hsort
  rcases List.mem_cons.mp hx with rfl | hxt
  · exact hh0
  · exact lt_of_lt_of_le hh0 ((List.pairwise_cons.mp hsort).1 x hxt)

/-- A successful tail-trim keeps only frames strictly before `hi`, and keeps
a subset of the incoming frames. -/
lemma eraseSeqTailData_bounds {α : Type} (tsf : α → ℚ) (hi : ℚ)
    (seq r : List α) (hs : TsSorted tsf seq)
    (h : eraseSeqTailData (fun f => decide (tsf f < hi)) seq = some r) :
    (∀ x ∈ r, tsf x < hi) ∧ ∀ x ∈ r, x ∈ seq := by
  unfold eraseSeqTailData at h
  split_ifs at h with he
  cases h
  set d := seq.reverse.dropWhile fun x => !decide (tsf x < hi) with hd
  have hsub : List.Sublist d seq.reverse := List.dropWhile_sublist _
  have hmem : ∀ x ∈ d.reverse, x ∈ seq := by
    intro x hx
    rw [List.mem_reverse] at hx
    exact List.mem_reverse.mp (hsub.subset hx)
  refine ⟨?_, hmem⟩
  intro x hx
  rw [List.mem_reverse] at hx
  have hsortrev : seq.reverse.Pairwise fun x y => tsf y ≤ tsf x := by
    rw [List.pairwise_reverse]
    exact hs
  have hsort : d.Pairwise fun x y => tsf y ≤ tsf x :=
    List.Pairwise.sublist hsub hsortrev
  have hne : d ≠ [] := by
    intro hnil
    rw [hnil] at he
    simp at he
  obtain ⟨h0, t, heq⟩ : ∃ h0 t, d = h0 :: t := by
    cases hdd : d with
    | nil => exact absurd hdd hne
    | cons h0 t => exact ⟨h0, t, rfl⟩
  have hh0 : tsf h0 < hi := by
    have := head_sat_dropWhile (fun f => decide (tsf f < hi)) seq.reverse h0
      (by rw [← hd, heq]; rfl)
    exact of_decide_eq_true this
  rw [heq] at hx hsort
  rcases List.mem_cons.mp hx with rfl | hxt
  · exact hh0
  · exact lt_of_le_of_lt ((List.pairwise_cons.mp hsort).1 x hxt) hh0

/-- Frames surviving a stream trim lie strictly inside `(lo, hi)`. -/
lemma trimStream_bounds {α : Type} (tsf : α → ℚ) (lo hi : ℚ)
    (seq r : List α) (hs : TsSorted tsf seq)
    (h : trimStream tsf lo hi seq = some r) :
    ∀ x ∈ r, lo < tsf x ∧ tsf x < hi := by
  simp only [trimStream, Option.bind_eq_some] at h
  obtain ⟨a, ha, hr⟩ := h
  obtain ⟨hlo, hsorta⟩ := eraseSeqHeadData_bounds tsf lo seq a hs ha
  obtain ⟨hhi, hmem⟩ := eraseSeqTailData_bounds tsf hi a r hsorta hr
  exact fun x hx => ⟨hlo x (hmem x hx), hhi x hx⟩

/-- Every stream produced by the per-topic loop comes from trimming one of
the incoming streams. -/
lemma forEachTopic_mem {α β : Type} (f : α → Option β) :
    ∀ {l : List α} {l' : List β}, forEachTopic f l = some l' →
      ∀ y ∈ l', ∃ x ∈ l, f x = some y := by
  intro l
  induction l with
  | nil =>
    intro l' h y hy
    simp only [forEachTopic, Option.some.injEq] at h
    subst h
    simp at hy
  | cons a l ih =>
    intro l' h y hy
    simp only [forEachTopic, Option.bind_eq_some, Option.pure_def,
      Option.some.injEq] at h
    obtain ⟨b, hb, bs, hbs, rfl⟩ := h
    rcases List.mem_cons.mp hy with rfl | hyt
    · exact ⟨a, List.mem_cons_self a l, hb⟩
    · obtain ⟨x, hx, hfx⟩ := ih hbs y hyt
      exact ⟨x, List.mem_cons_of_mem a hx, hfx⟩

/-- Claim C3: after `AdjustCalibDataSequence`, every retained inertial frame
timestamp lies within `[rawStart, rawEnd]`, and every retained radar, lidar
or camera frame timestamp lies within the window inset by twice the
time-offset padding on each side (hence in particular within the window
inset by one padding on each side). -/
theorem adjustCalibDataSequence_trims_to_window (pad : ℚ)
    (m m' : CalibDataManager) (hpad : 0 ≤ pad)
    (himu : ∀ s ∈ m.imuMes, TsSorted IMUFrame.ts s)
    (hradar : ∀ s ∈ m.radarMes, TsSorted RadarTargetArray.ts s)
    (hlidar : ∀ s ∈ m.lidarMes, TsSorted LiDARFrame.ts s)
    (hcam : ∀ s ∈ m.camMes, TsSorted CameraFrame.ts s)
    (h : adjustCalibDataSequence pad m = some m') :
    (∀ s ∈ m'.imuMes, ∀ f ∈ s,
      m'.rawStartTimestamp ≤ f.ts ∧ f.ts ≤ m'.rawEndTimestamp) ∧
    (∀ s ∈ m'.radarMes, ∀ f ∈ s,
      m'.rawStartTimestamp + 2*pad ≤ f.ts ∧ f.ts ≤ m'.rawEndTimestamp - 2*pad ∧
      m'.rawStartTimestamp + pad ≤ f.ts ∧ f.ts ≤ m'.rawEndTimestamp - pad) ∧
    (∀ s ∈ m'.lidarMes, ∀ f ∈ s,
      m'.rawStartTimestamp + 2*pad ≤ f.ts ∧ f.ts ≤ m'.rawEndTimestamp - 2*pad ∧
      m'.rawStartTimestamp + pad ≤ f.ts ∧ f.ts ≤ m'.rawEndTimestamp - pad) ∧
    (∀ s ∈ m'.camMes, ∀ f ∈ s,
      m'.rawStartTimestamp + 2*pad ≤ f.ts ∧ f.ts ≤ m'.rawEndTimestamp - 2*pad ∧
      m'.rawStartTimestamp + pad ≤ f.ts ∧ f.ts ≤ m'.rawEndTimestamp - pad) := by
  simp only [adjustCalibDataSequence, Option.bind_eq_some, Option.some.injEq] at h
  obtain ⟨w, hw, imu, himu', radar, hradar', lidar, hlidar', cam, hcam', hm'⟩ := h
  subst hm'
  simp only []
  refine ⟨?_, ?_, ?_, ?_⟩
  · intro s hs f hf
    obtain ⟨s0, hs0, ht⟩ := forEachTopic_mem _ himu' s hs
    obtain ⟨h1, h2⟩ := trimStream_bounds _ _ _ _ _ (himu s0 hs0) ht f hf
    exact ⟨le_of_lt h1, le_of_lt h2⟩
  · intro s hs f hf
    obtain ⟨s0, hs0, ht⟩ := forEachTopic_mem _ hradar' s hs
    obtain ⟨h1, h2⟩ := trimStream_bounds _ _ _ _ _ (hradar s0 hs0) ht f hf
    exact ⟨le_of_lt h1, le_of_lt h2, by linarith, by linarith⟩
  · intro s hs f hf
    obtain ⟨s0, hs0, ht⟩ := forEachTopic_mem _ hlidar' s hs
    obtain ⟨h1, h2⟩ := trimStream_bounds _ _ _ _ _ (hlidar s0 hs0) ht f hf
    exact ⟨le_of_lt h1, le_of_lt h2, by linarith, by linarith⟩
  · intro s hs f hf
    obtain ⟨s0, hs0, ht⟩ := forEachTopic_mem _ hcam' s hs
    obtain ⟨h1, h2⟩ := trimStream_bounds _ _ _ _ _ (hcam s0 hs0) ht f hf
    exact ⟨le_of_lt h1, le_of_lt h2, by linarith, by linarith⟩

/-- Claim C2 (amended): after `AlignTimestamp`, the aligned start timestamp
is exactly `0.0`, `GetCalibStartTimestamp` returns exactly the time-offset
padding, and `GetCalibEndTimestamp` returns exactly
`(rawEnd - rawStart) - padding`; the minimum frame timestamp across the
inertial streams, however, is strictly positive (the head-trim retains only
frames strictly after the raw start), not `0.0`. -/
theorem alignTimestamp_zero_basing (pad : ℚ) (m m' : CalibDataManager)
    (himu : ∀ s ∈ m.imuMes, TsSorted IMUFrame.ts s)
    (h : adjustCalibDataSequence pad m = some m') :
    (alignTimestamp m').alignedStartTimestamp = 0 ∧
    getCalibStartTimestamp pad (alignTimestamp m') = pad ∧
    getCalibEndTimestamp pad (alignTimestamp m') =
      (m'.rawEndTimestamp - m'.rawStartTimestamp) - pad ∧
    ∀ s ∈ (alignTimestamp m').imuMes, ∀ f ∈ s, 0 < f.ts := by
  refine ⟨rfl, by simp [getCalibStartTimestamp, alignTimestamp], ?_, ?_⟩
  · simp [getCalibEndTimestamp, alignTimestamp]
  · simp only [adjustCalibDataSequence, Option.bind_eq_some,
      Option.some.injEq] at h
    obtain ⟨w, hw, imu, himu', radar, hradar', lidar, hlidar', cam, hcam', hm'⟩ := h
    subst hm'
    intro s hs f hf
    simp only [alignTimestamp, List.mem_map] at hs
    obtain ⟨s1, hs1, rfl⟩ := hs
    simp only [List.mem_map] at hf
    obtain ⟨f1, hf1, rfl⟩ := hf
    obtain ⟨s0, hs0, ht⟩ := forEachTopic_mem _ himu' s1 hs1
    obtain ⟨h1, h2⟩ := trimStream_bounds _ _ _ _ _ (himu s0 hs0) ht f1 hf1
    simpa using sub_pos.mpr h1

/-- A concrete raw data set: one inertial stream at 0,10,20,30,40 s and one
radar stream at 3,20,37 s (already regrouped), with padding 1 s. -/
def exManager0 : CalibDataManager :=
  { imuMes := [[⟨0⟩, ⟨10⟩, ⟨20⟩, ⟨30⟩, ⟨40⟩]],
    radarMes := [[⟨3, [3]⟩, ⟨20, [20]⟩, ⟨37, [37]⟩]],
    lidarMes := [], camMes := [],
    rawStartTimestamp := 0, rawEndTimestamp := 0,
    alignedStartTimestamp := 0, alignedEndTimestamp := 0 }

/-- The adjusted state for `exManager0`: raw window `[3, 37]`, inertial
frames at 10,20,30 s, radar frames inside `[5, 35]`. -/
def exManager1 : CalibDataManager :=
  { imuMes := [[⟨10⟩, ⟨20⟩, ⟨30⟩]],
    radarMes := [[⟨20, [20]⟩]],
    lidarMes := [], camMes := [],
    rawStartTimestamp := 3, rawEndTimestamp := 37,
    alignedStartTimestamp := 0, alignedEndTimestamp := 0 }

/-- Evaluating `AdjustCalibDataSequence` on the concrete data set. -/
lemma adjust_exManager0 : adjustCalibDataSequence 1 exManager0 = some exManager1 := by
  have h1 : computeRawTimeWindow exManager0 = some (3, 37) := by
    norm_num [computeRawTimeWindow, maxFrontTs, minBackTs, isIntegrated,
      forEachTopic, List.max?, List.min?, List.getLast?, max_def, min_def,
      exManager0]
  have h2 : trimStream IMUFrame.ts 3 37 [⟨0⟩, ⟨10⟩, ⟨20⟩, ⟨30⟩, ⟨40⟩] =
      some [⟨10⟩, ⟨20⟩, ⟨30⟩] := by
    norm_num [trimStream, eraseSeqHeadData, eraseSeqTailData, List.dropWhile]
  have h3 : trimStream RadarTargetArray.ts (3 + 2*1) (37 - 2*1)
      [⟨3, [3]⟩, ⟨20, [20]⟩, ⟨37, [37]⟩] = some [⟨20, [20]⟩] := by
    norm_num [trimStream, eraseSeqHeadData, eraseSeqTailData, List.dropWhile]
  simp only [adjustCalibDataSequence]
  rw [h1]
  simp only [Option.bind, exManager0, forEachTopic]
  rw [h2, h3]
  simp [exManager1]

/-- Sortedness of the concrete input streams. -/
lemma exManager0_sorted :
    (∀ s ∈ exManager0.imuMes, TsSorted IMUFrame.ts s) ∧
    (∀ s ∈ exManager0.radarMes, TsSorted RadarTargetArray.ts s) ∧
    (∀ s ∈ exManager0.lidarMes, TsSorted LiDARFrame.ts s) ∧
    (∀ s ∈ exManager0.camMes, TsSorted CameraFrame.ts s) := by
  refine ⟨?_, ?_, ?_, ?_⟩
  · intro s hs
    simp only [exManager0, List.mem_singleton] at hs
    subst hs
    norm_num [TsSorted, List.pairwise_cons]
  · intro s hs
    simp only [exManager0, List.mem_singleton] at hs
    subst hs
    norm_num [TsSorted, List.pairwise_cons, RadarTargetArray.ts]
  · intro s hs
    simp [exManager0] at hs
  · intro s hs
    simp [exManager0] at hs

/-- Witness for `adjustCalibDataSequence_trims_to_window` at the concrete
data set: padding 1 s, inertial frames inside `[3, 37]`, radar frames
inside `[5, 35]`. -/
theorem adjustCalibDataSequence_trims_to_window_witness :
    (∀ s ∈ exManager1.imuMes, ∀ f ∈ s,
      exManager1.rawStartTimestamp ≤ f.ts ∧ f.ts ≤ exManager1.rawEndTimestamp) ∧
    (∀ s ∈ exManager1.radarMes, ∀ f ∈ s,
      exManager1.rawStartTimestamp + 2*1 ≤ f.ts ∧
      f.ts ≤ exManager1.rawEndTimestamp - 2*1 ∧
      exManager1.rawStartTimestamp + 1 ≤ f.ts ∧
      f.ts ≤ exManager1.rawEndTimestamp - 1) ∧
    (∀ s ∈ exManager1.lidarMes, ∀ f ∈ s,
      exManager1.rawStartTimestamp + 2*1 ≤ f.ts ∧
      f.ts ≤ exManager1.rawEndTimestamp - 2*1 ∧
      exManager1.rawStartTimestamp + 1 ≤ f.ts ∧
      f.ts ≤ exManager1.rawEndTimestamp - 1) ∧
    (∀ s ∈ exManager1.camMes, ∀ f ∈ s,
      exManager1.rawStartTimestamp + 2*1 ≤ f.ts ∧
      f.ts ≤ exManager1.rawEndTimestamp - 2*1 ∧
      exManager1.rawStartTimestamp + 1 ≤ f.ts ∧
      f.ts ≤ exManager1.rawEndTimestamp - 1) :=
  adjustCalibDataSequence_trims_to_window 1 exManager0 exManager1
    (by norm_num) exManager0_sorted.1 exManager0_sorted.2.1
    exManager0_sorted.2.2.1 exManager0_sorted.2.2.2 adjust_exManager0

/-- Witness for `alignTimestamp_zero_basing` at the concrete data set. -/
theorem alignTimestamp_zero_basing_witness :
    (alignTimestamp exManager1).alignedStartTimestamp = 0 ∧
    getCalibStartTimestamp 1 (alignTimestamp exManager1) = 1 ∧
    getCalibEndTimestamp 1 (alignTimestamp exManager1) =
      (exManager1.rawEndTimestamp - exManager1.rawStartTimestamp) - 1 ∧
    ∀ s ∈ (alignTimestamp exManager1).imuMes, ∀ f ∈ s, 0 < f.ts :=
  alignTimestamp_zero_basing 1 exManager0 exManager1
    exManager0_sorted.1 adjust_exManager0

/-- Counterexample to claim C2 as stated: on the concrete data set the raw
start timestamp is 3 s, the head-trim drops the inertial frame at exactly
3 s (it retains frames strictly after the raw start), and after alignment
the minimum inertial timestamp is 7 s, not 0.0. -/
theorem alignTimestamp_min_inertial_nonzero_cex :
    ((adjustCalibDataSequence 1 exManager0).map fun x =>
      minInertialTs (alignTimestamp x)) = some (some 7) ∧ (7 : ℚ) ≠ 0 := by
  constructor
  · rw [adjust_exManager0]
    norm_num [minInertialTs, alignTimestamp, exManager1, List.min?, min_def]
  · norm_num

/-! ## Calibration solver (`src/unnamed/part_001`) -/

/-- The scale-spline physical meaning (`TimeDeriv::ScaleSplineType`). -/
inductive ScaleSplineType where
  | LIN_ACCE_SPLINE
  | LIN_VEL_SPLINE
  | LIN_POS_SPLINE
  deriving DecidableEq, Repr

/-- The configured topic lists of `Configor::DataStream` that decide which
sensor kinds are integrated. -/
structure Configor where
  imuTopics : List String
  radarTopics : List String
  lidarTopics : List String
  camTopics : List String
  deriving DecidableEq, Repr

/-- Modelled from the spec: `Configor::IsLiDARIntegrated` (outside the
snapshot) — a sensor kind is integrated when it has configured topics. -/
def Configor.isLiDARIntegrated (c : Configor) : Bool := !c.lidarTopics.isEmpty

/-- Modelled from the spec: `Configor::IsCameraIntegrated`. -/
def Configor.isCameraIntegrated (c : Configor) : Bool := !c.camTopics.isEmpty

/-- Modelled from the spec: `Configor::IsRadarIntegrated`. -/
def Configor.isRadarIntegrated (c : Configor) : Bool := !c.radarTopics.isEmpty

/-- `CalibSolver::GetScaleType` (part_001, lines 203-211). -/
def getScaleType (c : Configor) : ScaleSplineType :=
  if c.isLiDARIntegrated || c.isCameraIntegrated then
    ScaleSplineType.LIN_POS_SPLINE
  else if c.isRadarIntegrated then ScaleSplineType.LIN_VEL_SPLINE
  else ScaleSplineType.LIN_ACCE_SPLINE

/-- Claim C8: the scale type is position whenever any lidar or camera is
integrated; otherwise velocity whenever any radar is integrated; otherwise
acceleration. -/
theorem getScaleType_by_observability (c : Configor) :
    ((c.isLiDARIntegrated || c.isCameraIntegrated) = true →
      getScaleType c = ScaleSplineType.LIN_POS_SPLINE) ∧
    ((c.isLiDARIntegrated || c.isCameraIntegrated) = false →
      c.isRadarIntegrated = true →
      getScaleType c = ScaleSplineType.LIN_VEL_SPLINE) ∧
    ((c.isLiDARIntegrated || c.isCameraIntegrated) = false →
      c.isRadarIntegrated = false →
      getScaleType c = ScaleSplineType.LIN_ACCE_SPLINE) := by
  refine ⟨fun h => ?_, fun h1 h2 => ?_, fun h1 h2 => ?_⟩ <;>
    simp [getScaleType, *]

/-- Witness for `getScaleType_by_observability` at three concrete
configurations. -/
theorem getScaleType_by_observability_witness :
    getScaleType ⟨["imu"], [], ["lidar"], []⟩ = ScaleSplineType.LIN_POS_SPLINE ∧
    getScaleType ⟨["imu"], ["radar"], [], []⟩ = ScaleSplineType.LIN_VEL_SPLINE ∧
    getScaleType ⟨["imu"], [], [], []⟩ = ScaleSplineType.LIN_ACCE_SPLINE :=
  ⟨(getScaleType_by_observability _).1 rfl,
   (getScaleType_by_observability _).2.1 rfl rfl,
   (getScaleType_by_observability _).2.2 rfl rfl⟩

/-- The observable outcome of the bag-open step at the top of
`LoadCalibData` (lines 63-68). -/
structure BagOpenOutcome where
  bagOpened : Bool
  fatal : Bool
  errorLogged : Bool
  deriving DecidableEq, Repr

/-- Lines 63-68 of `LoadCalibData`: when the configured ros-bag path does
not exist the code calls `spdlog::error` and falls through (no throw, no
abort); only when it exists is the bag opened.  Either way execution
continues into the view construction. -/
def loadCalibDataOpenBag (bagPathExists : Bool) : BagOpenOutcome :=
  if !bagPathExists then
    { bagOpened := false, fatal := false, errorLogged := true }
  else
    { bagOpened := true, fatal := false, errorLogged := false }

/-- Claim C9 (code bug): with a missing ros-bag path, `LoadCalibData` merely
logs an error and continues — the run is not aborted, and processing goes on
with an unopened bag, contradicting the spec's "abort the run with
descriptive context". -/
theorem loadCalibDataOpenBag_missing_path_not_fatal :
    (loadCalibDataOpenBag false).fatal = false ∧
    (loadCalibDataOpenBag false).errorLogged = true ∧
    (loadCalibDataOpenBag false).bagOpened = false :=
  ⟨rfl, rfl, rfl⟩

/-! ## Rotations, splines and pose queries

Sophus `SO3d` stores a unit quaternion; rotations are embedded as rational
quaternions acting projectively (the action divides by the squared norm, so
it is the rotation action for unit quaternions and remains a rotation for
any non-zero quaternion). -/

/-- A 3-vector (`Eigen::Vector3d`). -/
structure Vec3 where
  x : ℚ
  y : ℚ
  z : ℚ
  deriving DecidableEq, Repr

/-- Vector addition. -/
def Vec3.add (a b : Vec3) : Vec3 := ⟨a.x + b.x, a.y + b.y, a.z + b.z⟩

/-- A quaternion (`Sophus::SO3d` stores one, unit-norm). -/
structure Quat where
  w : ℚ
  x : ℚ
  y : ℚ
  z : ℚ
  deriving DecidableEq, Repr

/-- The Hamilton product, i.e. composition of rotations (`SO3d::operator*`). -/
def Quat.mul (p q : Quat) : Quat :=
  ⟨p.w*q.w - p.x*q.x - p.y*q.y - p.z*q.z,
   p.w*q.x + p.x*q.w + p.y*q.z - p.z*q.y,
   p.w*q.y - p.x*q.z + p.y*q.w + p.z*q.x,
   p.w*q.z + p.x*q.y - p.y*q.x + p.z*q.w⟩

/-- The conjugate quaternion; for a unit quaternion this is
`SO3d::inverse`. -/
def Quat.conj (q : Quat) : Quat := ⟨q.w, -q.x, -q.y, -q.z⟩

/-- The squared norm. -/
def Quat.normSq (q : Quat) : ℚ := q.w*q.w + q.x*q.x + q.y*q.y + q.z*q.z

/-- The identity rotation. -/
def Quat.one : Quat := ⟨1, 0, 0, 0⟩

/-- The rotation action of a quaternion on a vector
(`SO3d::operator* (Vector3d)`): conjugate the pure quaternion `(0, v)` and
divide by the squared norm (a no-op for unit quaternions). -/
def rotVec (q : Quat) (v : Vec3) : Vec3 :=
  ⟨(Quat.mul (Quat.mul q ⟨0, v.x, v.y, v.z⟩) q.conj).x / q.normSq,
   (Quat.mul (Quat.mul q ⟨0, v.x, v.y, v.z⟩) q.conj).y / q.normSq,
   (Quat.mul (Quat.mul q ⟨0, v.x, v.y, v.z⟩) q.conj).z / q.normSq⟩

/-- A rigid transform (`Sophus::SE3d`): rotation and translation. -/
structure SE3 where
  so3 : Quat
  trans : Vec3
  deriving DecidableEq, Repr

/-- Composition of rigid transforms (`SE3d::operator*`). -/
def SE3.mul (a b : SE3) : SE3 :=
  ⟨Quat.mul a.so3 b.so3, Vec3.add (rotVec a.so3 b.trans) a.trans⟩

/-- The orientation spline: a validity interval and rotation knots. -/
structure So3Spline where
  minTime : ℚ
  maxTime : ℚ
  knots : List Quat
  deriving DecidableEq, Repr

/-- The scale spline: a validity interval and vector knots. -/
structure RdSpline where
  minTime : ℚ
  maxTime : ℚ
  knots : List Vec3
  deriving DecidableEq, Repr

/-- Modelled from the spec: the spline library's `TimeStampInRange` — each
spline carries a validity interval `[minTime, maxTime]` and a query time is
in range exactly when it lies in that interval. -/
def So3Spline.timeStampInRange (s : So3Spline) (t : ℚ) : Bool :=
  decide (s.minTime ≤ t) && decide (t ≤ s.maxTime)

/-- Modelled from the spec: `TimeStampInRange` of the scale spline. -/
def RdSpline.timeStampInRange (s : RdSpline) (t : ℚ) : Bool :=
  decide (s.minTime ≤ t) && decide (t ≤ s.maxTime)

/-- Modelled from the spec: ctraj B-spline evaluation is an external
collaborator; for the claims under study only availability and the identity
of the applied correction rotation matter, so the sample is represented by
the first knot (the identity rotation when there is none). -/
def So3Spline.evaluate (s : So3Spline) (_t : ℚ) : Quat :=
  s.knots.headD Quat.one

/-- Modelled from the spec: scale-spline evaluation (see
`So3Spline.evaluate`). -/
def RdSpline.evaluate (s : RdSpline) (_t : ℚ) : Vec3 :=
  s.knots.headD ⟨0, 0, 0⟩

/-- The solver's spline bundle (`_splines`): the orientation spline and the
scale spline sharing one time axis. -/
structure SplineBundle where
  so3Spline : So3Spline
  scaleSpline : RdSpline
  deriving DecidableEq, Repr

/-- The parameter-manager fields that the pose queries read: per-topic time
offsets and extrinsics (modelled as total maps: the claims quantify over
configured topics) and the gravity vector. -/
structure CalibParamManager where
  gravity : Vec3
  toLkToBr : String → ℚ
  toCmToBr : String → ℚ
  toRjToBr : String → ℚ
  se3LkToBr : String → SE3
  se3CmToBr : String → SE3
  se3RjToBr : String → SE3

/-- `CalibSolver::CurBrToW` (part_001, lines 138-150). -/
def curBrToW (cfg : Configor) (spl : SplineBundle) (timeByBr : ℚ) :
    Except String (Option SE3) :=
  if getScaleType cfg ≠ ScaleSplineType.LIN_POS_SPLINE then
    Except.error "CurBrToW error, scale spline is not translation spline!!!"
  else if !spl.so3Spline.timeStampInRange timeByBr ||
      !spl.scaleSpline.timeStampInRange timeByBr then
    Except.ok none
  else
    Except.ok (some ⟨spl.so3Spline.evaluate timeByBr,
      spl.scaleSpline.evaluate timeByBr⟩)

/-- `CalibSolver::CurLkToW` (part_001, lines 152-167). -/
def curLkToW (cfg : Configor) (spl : SplineBundle) (par : CalibParamManager)
    (timeByLk : ℚ) (topic : String) : Except String (Option SE3) :=
  if getScaleType cfg ≠ ScaleSplineType.LIN_POS_SPLINE then
    Except.error "CurLkToW error, scale spline is not translation spline!!!"
  else if !spl.so3Spline.timeStampInRange (timeByLk + par.toLkToBr topic) ||
      !spl.scaleSpline.timeStampInRange (timeByLk + par.toLkToBr topic) then
    Except.ok none
  else
    Except.ok (some (SE3.mul
      ⟨spl.so3Spline.evaluate (timeByLk + par.toLkToBr topic),
       spl.scaleSpline.evaluate (timeByLk + par.toLkToBr topic)⟩
      (par.se3LkToBr topic)))

/-- `CalibSolver::CurCmToW` (part_001, lines 169-184). -/
def curCmToW (cfg : Configor) (spl : SplineBundle) (par : CalibParamManager)
    (timeByCm : ℚ) (topic : String) : Except String (Option SE3) :=
  if getScaleType cfg ≠ ScaleSplineType.LIN_POS_SPLINE then
    Except.error "CurCmToW error, scale spline is not translation spline!!!"
  else if !spl.so3Spline.timeStampInRange (timeByCm + par.toCmToBr topic) ||
      !spl.scaleSpline.timeStampInRange (timeByCm + par.toCmToBr topic) then
    Except.ok none
  else
    Except.ok (some (SE3.mul
      ⟨spl.so3Spline.evaluate (timeByCm + par.toCmToBr topic),
       spl.scaleSpline.evaluate (timeByCm + par.toCmToBr topic)⟩
      (par.se3CmToBr topic)))

/-- `CalibSolver::CurRjToW` (part_001, lines 186-201). -/
def curRjToW (cfg : Configor) (spl : SplineBundle) (par : CalibParamManager)
    (timeByRj : ℚ) (topic : String) : Except String (Option SE3) :=
  if getScaleType cfg ≠ ScaleSplineType.LIN_POS_SPLINE then
    Except.error "CurRjToW error, scale spline is not translation spline!!!"
  else if !spl.so3Spline.timeStampInRange (timeByRj + par.toRjToBr topic) ||
      !spl.scaleSpline.timeStampInRange (timeByRj + par.toRjToBr topic) then
    Except.ok none
  else
    Except.ok (some (SE3.mul
      ⟨spl.so3Spline.evaluate (timeByRj + par.toRjToBr topic),
       spl.scaleSpline.evaluate (timeByRj + par.toRjToBr topic)⟩
      (par.se3RjToBr topic)))

/-- Claim C4: every pose query raises a fatal error when the scale spline is
not position-typed; otherwise it returns `none` (unavailable) exactly when
the offset-shifted body time is outside the validity interval of the
orientation spline or of the scale spline, and a pose otherwise. -/
theorem poseQueries_availability (cfg : Configor) (spl : SplineBundle)
    (par : CalibParamManager) (t : ℚ) (topic : String) :
    (getScaleType cfg ≠ ScaleSplineType.LIN_POS_SPLINE →
      (∃ e, curBrToW cfg spl t = Except.error e) ∧
      (∃ e, curLkToW cfg spl par t topic = Except.error e) ∧
      (∃ e, curCmToW cfg spl par t topic = Except.error e) ∧
      (∃ e, curRjToW cfg spl par t topic = Except.error e)) ∧
    (getScaleType cfg = ScaleSplineType.LIN_POS_SPLINE →
      (((spl.so3Spline.timeStampInRange t &&
          spl.scaleSpline.timeStampInRange t) = false →
        curBrToW cfg spl t = Except.ok none) ∧
       ((spl.so3Spline.timeStampInRange t &&
          spl.scaleSpline.timeStampInRange t) = true →
        ∃ p, curBrToW cfg spl t = Except.ok (some p))) ∧
      (((spl.so3Spline.timeStampInRange (t + par.toLkToBr topic) &&
          spl.scaleSpline.timeStampInRange (t + par.toLkToBr topic)) = false →
        curLkToW cfg spl par t topic = Except.ok none) ∧
       ((spl.so3Spline.timeStampInRange (t + par.toLkToBr topic) &&
          spl.scaleSpline.timeStampInRange (t + par.toLkToBr topic)) = true →
        ∃ p, curLkToW cfg spl par t topic = Except.ok (some p))) ∧
      (((spl.so3Spline.timeStampInRange (t + par.toCmToBr topic) &&
          spl.scaleSpline.timeStampInRange (t + par.toCmToBr topic)) = false →
        curCmToW cfg spl par t topic = Except.ok none) ∧
       ((spl.so3Spline.timeStampInRange (t + par.toCmToBr topic) &&
          spl.scaleSpline.timeStampInRange (t + par.toCmToBr topic)) = true →
        ∃ p, curCmToW cfg spl par t topic = Except.ok (some p))) ∧
      (((spl.so3Spline.timeStampInRange (t + par.toRjToBr topic) &&
          spl.scaleSpline.timeStampInRange (t + par.toRjToBr topic)) = false →
        curRjToW cfg spl par t topic = Except.ok none) ∧
       ((spl.so3Spline.timeStampInRange (t + par.toRjToBr topic) &&
          spl.scaleSpline.timeStampInRange (t + par.toRjToBr topic)) = true →
        ∃ p, curRjToW cfg spl par t topic = Except.ok (some p)))) := by
  constructor
  · intro hne
    exact ⟨⟨"CurBrToW error, scale spline is not translation spline!!!",
        by simp [curBrToW, hne]⟩,
      ⟨"CurLkToW error, scale spline is not translation spline!!!",
        by simp [curLkToW, hne]⟩,
      ⟨"CurCmToW error, scale spline is not translation spline!!!",
        by simp [curCmToW, hne]⟩,
      ⟨"CurRjToW error, scale spline is not translation spline!!!",
        by simp [curRjToW, hne]⟩⟩
  · intro hpos
    refine ⟨⟨fun hb => ?_, fun hb => ?_⟩, ⟨fun hb => ?_, fun hb => ?_⟩,
            ⟨fun hb => ?_, fun hb => ?_⟩, ⟨fun hb => ?_, fun hb => ?_⟩⟩
    · rw [Bool.and_eq_false_iff] at hb
      simp only [curBrToW, hpos]
      rcases hb with hb | hb <;> simp [hb]
    · rw [Bool.and_eq_true] at hb
      exact ⟨⟨spl.so3Spline.evaluate t, spl.scaleSpline.evaluate t⟩,
        by simp [curBrToW, hpos, hb.1, hb.2]⟩
    · rw [Bool.and_eq_false_iff] at hb
      simp only [curLkToW, hpos]
      rcases hb with hb | hb <;> simp [hb]
    · rw [Bool.and_eq_true] at hb
      exact ⟨SE3.mul ⟨spl.so3Spline.evaluate (t + par.toLkToBr topic),
          spl.scaleSpline.evaluate (t + par.toLkToBr topic)⟩
          (par.se3LkToBr topic),
        by simp [curLkToW, hpos, hb.1, hb.2]⟩
    · rw [Bool.and_eq_false_iff] at hb
      simp only [curCmToW, hpos]
      rcases hb with hb | hb <;> simp [hb]
    · rw [Bool.and_eq_true] at hb
      exact ⟨SE3.mul ⟨spl.so3Spline.evaluate (t + par.toCmToBr topic),
          spl.scaleSpline.evaluate (t + par.toCmToBr topic)⟩
          (par.se3CmToBr topic),
        by simp [curCmToW, hpos, hb.1, hb.2]⟩
    · rw [Bool.and_eq_false_iff] at hb
      simp only [curRjToW, hpos]
      rcases hb with hb | hb <;> simp [hb]
    · rw [Bool.and_eq_true] at hb
      exact ⟨SE3.mul ⟨spl.so3Spline.evaluate (t + par.toRjToBr topic),
          spl.scaleSpline.evaluate (t + par.toRjToBr topic)⟩
          (par.se3RjToBr topic),
        by simp [curRjToW, hpos, hb.1, hb.2]⟩

/-- A configuration with a lidar topic: position scale type. -/
def exCfgPos : Configor := ⟨["imu"], [], ["lidar"], []⟩

/-- An inertial-only configuration: acceleration scale type. -/
def exCfgAcce : Configor := ⟨["imu"], [], [], []⟩

/-- A concrete spline bundle valid on `[0, 10]`. -/
def exSpl : SplineBundle := ⟨⟨0, 10, [Quat.one]⟩, ⟨0, 10, [⟨0, 0, 0⟩]⟩⟩

/-- Concrete solver parameters: every time offset is 1 s, every extrinsic is
the identity transform. -/
def exPar : CalibParamManager :=
  ⟨⟨0, 0, -1⟩, fun _ => 1, fun _ => 1, fun _ => 1,
   fun _ => ⟨Quat.one, ⟨0, 0, 0⟩⟩, fun _ => ⟨Quat.one, ⟨0, 0, 0⟩⟩,
   fun _ => ⟨Quat.one, ⟨0, 0, 0⟩⟩⟩

/-- Witness for `poseQueries_availability`: out of range gives `none`, in
range gives a pose, wrong scale type gives a fatal error. -/
theorem poseQueries_availability_witness :
    curBrToW exCfgPos exSpl 100 = Except.ok none ∧
    (∃ p, curLkToW exCfgPos exSpl exPar 5 "l" = Except.ok (some p)) ∧
    (∃ e, curBrToW exCfgAcce exSpl 0 = Except.error e) := by
  refine ⟨?_, ?_, ?_⟩
  · exact ((poseQueries_availability exCfgPos exSpl exPar 100 "l").2 rfl).1.1 rfl
  · exact ((poseQueries_availability exCfgPos exSpl exPar 5 "l").2 rfl).2.1.2
      (by rw [Bool.and_eq_true]
          constructor <;>
            · simp [So3Spline.timeStampInRange, RdSpline.timeStampInRange,
                exSpl, exPar]
              norm_num)
  · exact ((poseQueries_availability exCfgAcce exSpl exPar 0 "l").1
      (by decide)).1

/-! ## Gravity alignment (`AlignStatesToGravity`, part_001 lines 229-244) -/

/-- Modelled from the spec: `ObtainAlignedWtoRef` (declared outside the
snapshot) — "compute the rotation mapping the canonical 'down' axis onto
that [gravity] vector".  The canonical down axis is `(0,0,-1)` (the aligned
world frame's negative z axis carries gravity, source comment lines
232-233).  The minimal rotation taking `(0,0,-1)` to the direction of `g`
is, as a quaternion, proportional to `(‖g‖ - g.z, g.y, -g.x, 0)`; it is
normalized here with the rational square root `Rat.sqrt`, which is exact
whenever the radicand is the square of a rational — in particular whenever
gravity already points along the canonical down axis, where the result is
exactly the identity rotation.  The orientation sample passed at the call
site does not determine the rotation in the spec's description and is
ignored. -/
def obtainAlignedWtoRef (_so3AtMin : Quat) (g : Vec3) : Quat :=
  ⟨(Rat.sqrt (g.x*g.x + g.y*g.y + g.z*g.z) - g.z) /
      Rat.sqrt ((Rat.sqrt (g.x*g.x + g.y*g.y + g.z*g.z) - g.z) *
          (Rat.sqrt (g.x*g.x + g.y*g.y + g.z*g.z) - g.z) +
        g.y*g.y + g.x*g.x),
   g.y / Rat.sqrt ((Rat.sqrt (g.x*g.x + g.y*g.y + g.z*g.z) - g.z) *
          (Rat.sqrt (g.x*g.x + g.y*g.y + g.z*g.z) - g.z) +
        g.y*g.y + g.x*g.x),
   -g.x / Rat.sqrt ((Rat.sqrt (g.x*g.x + g.y*g.y + g.z*g.z) - g.z) *
          (Rat.sqrt (g.x*g.x + g.y*g.y + g.z*g.z) - g.z) +
        g.y*g.y + g.x*g.x),
   0⟩

/-- The correction rotation of lines 234-235:
`ObtainAlignedWtoRef(so3Spline.Evaluate(minTime), GRAVITY).inverse()`. -/
def correctionRot (spl : SplineBundle) (gravity : Vec3) : Quat :=
  (obtainAlignedWtoRef (spl.so3Spline.evaluate spl.so3Spline.minTime)
    gravity).conj

/-- `CalibSolver::AlignStatesToGravity` (lines 229-244): apply the
correction rotation to the gravity vector, to every orientation-spline knot
(rotation composition) and to every scale-spline knot (vector rotation);
nothing else changes. -/
def alignStatesToGravity (spl : SplineBundle) (gravity : Vec3) :
    SplineBundle × Vec3 :=
  ({ so3Spline := { spl.so3Spline with
       knots := spl.so3Spline.knots.map (Quat.mul (correctionRot spl gravity)) },
     scaleSpline := { spl.scaleSpline with
       knots := spl.scaleSpline.knots.map (rotVec (correctionRot spl gravity)) } },
   rotVec (correctionRot spl gravity) gravity)

/-- Left multiplication by the identity quaternion is the identity. -/
lemma qmul_one_left (q : Quat) : Quat.mul Quat.one q = q := by
  cases q
  simp only [Quat.mul, Quat.one, Quat.mk.injEq]
  refine ⟨by ring, by ring, by ring, by ring⟩

/-- The identity quaternion acts as the identity rotation. -/
lemma rotVec_one (v : Vec3) : rotVec Quat.one v = v := by
  cases v
  simp only [rotVec, Quat.mul, Quat.conj, Quat.normSq, Quat.one, Vec3.mk.injEq]
  norm_num

/-- With gravity exactly along the canonical down axis, the modelled
`ObtainAlignedWtoRef` is exactly the identity rotation. -/
lemma obtainAlignedWtoRef_aligned (q0 : Quat) (m : ℚ) (hm : 0 < m) :
    obtainAlignedWtoRef q0 ⟨0, 0, -m⟩ = Quat.one := by
  have h1 : ((0:ℚ)*0 + 0*0 + (-m)*(-m)) = m*m := by ring
  have h2 : Rat.sqrt (m*m) = m := by
    rw [Rat.sqrt_eq, abs_of_pos hm]
  have h3 : Rat.sqrt ((0:ℚ)*0 + 0*0 + (-m)*(-m)) = m := by rw [h1, h2]
  have h4 : (Rat.sqrt ((0:ℚ)*0 + 0*0 + (-m)*(-m)) - -m) = 2*m := by
    rw [h3]; ring
  have h5 : ((2*m) * (2*m) + (0:ℚ)*0 + 0*0) = (2*m)*(2*m) := by ring
  have h6 : Rat.sqrt ((2*m)*(2*m)) = 2*m := by
    rw [Rat.sqrt_eq, abs_of_pos (by linarith)]
  simp only [obtainAlignedWtoRef, h4, h5, h6, Quat.one, Quat.mk.injEq]
  refine ⟨div_self (by linarith), by simp, by simp, trivial⟩

/-- Claim C7: `AlignStatesToGravity` applies one common rotation — the
inverse of the rotation taking canonical down onto gravity — to the gravity
vector, to every orientation-spline knot and to every scale-spline knot,
and changes nothing else (the spline validity intervals are untouched);
when gravity already points along the canonical down axis the correction is
the identity, so re-running the alignment leaves gravity and every knot
unchanged. -/
theorem alignStatesToGravity_common_rotation_and_idempotent
    (spl : SplineBundle) (g : Vec3) (m : ℚ) :
    ((alignStatesToGravity spl g).2 = rotVec (correctionRot spl g) g ∧
     (alignStatesToGravity spl g).1.so3Spline.knots =
       spl.so3Spline.knots.map (Quat.mul (correctionRot spl g)) ∧
     (alignStatesToGravity spl g).1.scaleSpline.knots =
       spl.scaleSpline.knots.map (rotVec (correctionRot spl g)) ∧
     (alignStatesToGravity spl g).1.so3Spline.minTime = spl.so3Spline.minTime ∧
     (alignStatesToGravity spl g).1.so3Spline.maxTime = spl.so3Spline.maxTime ∧
     (alignStatesToGravity spl g).1.scaleSpline.minTime = spl.scaleSpline.minTime ∧
     (alignStatesToGravity spl g).1.scaleSpline.maxTime = spl.scaleSpline.maxTime) ∧
    (0 < m → g = ⟨0, 0, -m⟩ → alignStatesToGravity spl g = (spl, g)) := by
  constructor
  · exact ⟨rfl, rfl, rfl, rfl, rfl, rfl, rfl⟩
  · intro hm hg
    subst hg
    have hR : correctionRot spl ⟨0, 0, -m⟩ = Quat.one := by
      rw [correctionRot, obtainAlignedWtoRef_aligned _ m hm]
      simp [Quat.conj, Quat.one]
    rw [alignStatesToGravity, hR]
    have hq : Quat.mul Quat.one = id := funext qmul_one_left
    have hv : rotVec Quat.one = id := funext rotVec_one
    rw [hq, hv, List.map_id, List.map_id]
    rcases spl with ⟨⟨a, b, ks⟩, ⟨c, d, ks2⟩⟩
    rfl

/-- A spline bundle with non-trivial knots. -/
def exSplRot : SplineBundle := ⟨⟨0, 10, [⟨0, 1, 0, 0⟩]⟩, ⟨0, 10, [⟨1, 2, 3⟩]⟩⟩

/-- Witness for `alignStatesToGravity_common_rotation_and_idempotent`:
with gravity `(0, 0, -9.81)` already along canonical down, re-running the
alignment changes neither the knots nor gravity. -/
theorem alignStatesToGravity_idempotent_witness :
    (0:ℚ) < 981/100 ∧
      alignStatesToGravity exSplRot ⟨0, 0, -(981/100)⟩ =
        (exSplRot, ⟨0, 0, -(981/100)⟩) :=
  ⟨by norm_num,
   (alignStatesToGravity_common_rotation_and_idempotent exSplRot
      ⟨0, 0, -(981/100)⟩ (981/100)).2 (by norm_num) rfl⟩

/-! ## Reconstruction structures and `DownsampleVeta`
(part_001, lines 535-567) -/

/-- One 2D observation of a landmark (`ns_veta::Observation`): image point
and feature index. -/
structure Observation where
  ox : ℚ
  oy : ℚ
  featId : ℕ
  deriving DecidableEq, Repr

/-- A landmark (`ns_veta::Landmark`): 3D position, color, and a map from
view id to observation (association list with distinct keys). -/
structure Landmark where
  X : Vec3
  color : Vec3
  obs : List (ℕ × Observation)
  deriving DecidableEq, Repr

/-- Modelled from the spec: the contract of `SamplingWoutReplace2` (declared
outside the snapshot) — it draws `k` elements uniformly at random without
replacement from `xs`, threading the random engine; all that matters here is
the without-replacement part: the draw has exactly `k` distinct elements of
`xs`. -/
def SamplerSpec {E : Type} (sample : E → List ℕ → ℕ → List ℕ × E) : Prop :=
  ∀ (e : E) (xs : List ℕ) (k : ℕ), k ≤ xs.length → xs.Nodup →
    (sample e xs k).1.length = k ∧ (∀ i ∈ (sample e xs k).1, i ∈ xs) ∧
      (sample e xs k).1.Nodup

/-- The per-landmark observation cap of `DownsampleVeta` (lines 551-566):
skip landmarks under the cap, otherwise sample excess observation keys and
erase them. -/
def downsampleObsOne {E : Type} (sample : E → List ℕ → ℕ → List ℕ × E)
    (obvNumThd : ℕ) (e : E) (kv : ℕ × Landmark) : (ℕ × Landmark) × E :=
  if kv.2.obs.length < obvNumThd then (kv, e)
  else
    ((kv.1, { kv.2 with obs := kv.2.obs.filter fun o =>
        !((sample e (kv.2.obs.map Prod.fst)
            (kv.2.obs.length - obvNumThd)).1.contains o.1) }),
     (sample e (kv.2.obs.map Prod.fst) (kv.2.obs.length - obvNumThd)).2)

/-- The observation-cap loop over all landmarks, threading the engine. -/
def downsampleObsAll {E : Type} (sample : E → List ℕ → ℕ → List ℕ × E)
    (obvNumThd : ℕ) : E → List (ℕ × Landmark) → List (ℕ × Landmark)
  | _, [] => []
  | e, kv :: rest =>
    (downsampleObsOne sample obvNumThd e kv).1 ::
      downsampleObsAll sample obvNumThd
        (downsampleObsOne sample obvNumThd e kv).2 rest

/-- `CalibSolver::DownsampleVeta` (lines 535-567): when the landmark count
exceeds `lmNumThd`, sample `count - lmNumThd` landmark ids without
replacement and erase them; then cap every surviving landmark's observation
map at `obvNumThd` the same way. -/
def downsampleVeta {E : Type} (sample : E → List ℕ → ℕ → List ℕ × E) (e : E)
    (struct : List (ℕ × Landmark)) (lmNumThd obvNumThd : ℕ) :
    List (ℕ × Landmark) :=
  if lmNumThd < struct.length then
    downsampleObsAll sample obvNumThd
      (sample e (struct.map Prod.fst) (struct.length - lmNumThd)).2
      (struct.filter fun kv =>
        !((sample e (struct.map Prod.fst)
            (struct.length - lmNumThd)).1.contains kv.1))
  else downsampleObsAll sample obvNumThd e struct

/-- Filtering an association list on erased keys has the same length as
filtering the key list. -/
lemma length_filter_key {α : Type} (l : List (ℕ × α)) (toMove : List ℕ) :
    (l.filter fun kv => !(toMove.contains kv.1)).length =
      ((l.map Prod.fst).filter fun k => !(toMove.contains k)).length := by
  induction l with
  | nil => rfl
  | cons a l ih =>
    by_cases h : a.1 ∈ toMove
    · simp [List.filter_cons, h]
      simpa using ih
    · simp [List.filter_cons, h]
      simpa using ih

/-- Erasing a distinct sub-collection of keys from a distinct key list
removes exactly that many entries. -/
lemma length_filter_not_contains (keys toMove : List ℕ) (hk : keys.Nodup)
    (ht : toMove.Nodup) (hsub : ∀ i ∈ toMove, i ∈ keys) :
    (keys.filter fun k => !(toMove.contains k)).length =
      keys.length - toMove.length := by
  have h1 : (keys.filter fun k => !(toMove.contains k)).toFinset.card =
      (keys.filter fun k => !(toMove.contains k)).length :=
    List.toFinset_card_of_nodup (hk.filter _)
  rw [← h1, List.toFinset_filter]
  have h2 : keys.toFinset.filter (fun k => (!toMove.contains k) = true) =
      keys.toFinset \ toMove.toFinset := by
    rw [Finset.sdiff_eq_filter]
    apply Finset.filter_congr
    intro x hx
    simp
  rw [h2, Finset.card_sdiff]
  · rw [List.toFinset_card_of_nodup hk, List.toFinset_card_of_nodup ht]
  · intro x hx
    simp only [List.mem_toFinset] at hx ⊢
    exact hsub x hx

/-- What one observation-cap step does to a landmark: key, position and
color are untouched, the observation map shrinks to a subset of exactly
`min (obs count) cap` entries. -/
lemma downsampleObsOne_spec {E : Type} (sample : E → List ℕ → ℕ → List ℕ × E)
    (hs : SamplerSpec sample) (obvNumThd : ℕ) (e : E) (kv : ℕ × Landmark)
    (hobs : (kv.2.obs.map Prod.fst).Nodup) :
    (downsampleObsOne sample obvNumThd e kv).1.1 = kv.1 ∧
    (downsampleObsOne sample obvNumThd e kv).1.2.X = kv.2.X ∧
    (downsampleObsOne sample obvNumThd e kv).1.2.color = kv.2.color ∧
    (∀ o ∈ (downsampleObsOne sample obvNumThd e kv).1.2.obs, o ∈ kv.2.obs) ∧
    (downsampleObsOne sample obvNumThd e kv).1.2.obs.length =
      min kv.2.obs.length obvNumThd := by
  by_cases h : kv.2.obs.length < obvNumThd
  · simp only [downsampleObsOne, if_pos h]
    exact ⟨trivial, trivial, trivial, fun o ho => ho,
      (min_eq_left (le_of_lt h)).symm⟩
  · have hC : obvNumThd ≤ kv.2.obs.length := not_lt.mp h
    have hkle : kv.2.obs.length - obvNumThd ≤ (kv.2.obs.map Prod.fst).length := by
      rw [List.length_map]
      omega
    obtain ⟨hlen, hsub, hnd⟩ :=
      hs e (kv.2.obs.map Prod.fst) (kv.2.obs.length - obvNumThd) hkle hobs
    simp only [downsampleObsOne, if_neg h]
    refine ⟨trivial, trivial, trivial, ?_, ?_⟩
    · intro o ho
      exact (List.mem_filter.mp ho).1
    · rw [length_filter_key,
        length_filter_not_contains _ _ hobs hnd hsub, hlen, List.length_map]
      omega

/-- The observation-cap loop keeps the landmark count. -/
lemma downsampleObsAll_length {E : Type} (sample : E → List ℕ → ℕ → List ℕ × E)
    (obvNumThd : ℕ) :
    ∀ (e : E) (l : List (ℕ × Landmark)),
      (downsampleObsAll sample obvNumThd e l).length = l.length := by
  intro e l
  induction l generalizing e with
  | nil => rfl
  | cons kv rest ih => simp [downsampleObsAll, ih]

/-- Every entry after the observation-cap loop is the image of an input
entry under one cap step. -/
lemma downsampleObsAll_mem {E : Type} (sample : E → List ℕ → ℕ → List ℕ × E)
    (obvNumThd : ℕ) :
    ∀ (e : E) (l : List (ℕ × Landmark)) (kv' : ℕ × Landmark),
      kv' ∈ downsampleObsAll sample obvNumThd e l →
      ∃ kv ∈ l, ∃ e0 : E, kv' = (downsampleObsOne sample obvNumThd e0 kv).1 := by
  intro e l
  induction l generalizing e with
  | nil => intro kv' h; simp [downsampleObsAll] at h
  | cons kv rest ih =>
    intro kv' h
    rcases List.mem_cons.mp h with rfl | ht
    · exact ⟨kv, List.mem_cons_self kv rest, e, rfl⟩
    · obtain ⟨kv0, hkv0, e0, he0⟩ := ih _ kv' ht
      exact ⟨kv0, List.mem_cons_of_mem kv hkv0, e0, he0⟩

/-- Landmarks surviving the observation-cap loop come from the input list
with key, position and color intact and a capped observation subset. -/
lemma downsampleObsAll_spec {E : Type} (sample : E → List ℕ → ℕ → List ℕ × E)
    (hs : SamplerSpec sample) (obvNumThd : ℕ) (e : E)
    (l : List (ℕ × Landmark))
    (hobs : ∀ kv ∈ l, (kv.2.obs.map Prod.fst).Nodup) :
    ∀ kv' ∈ downsampleObsAll sample obvNumThd e l,
      ∃ kv ∈ l, kv'.1 = kv.1 ∧ kv'.2.X = kv.2.X ∧ kv'.2.color = kv.2.color ∧
        (∀ o ∈ kv'.2.obs, o ∈ kv.2.obs) ∧
        kv'.2.obs.length = min kv.2.obs.length obvNumThd := by
  intro kv' h
  obtain ⟨kv, hkv, e0, rfl⟩ := downsampleObsAll_mem sample obvNumThd e l kv' h
  obtain ⟨h1, h2, h3, h4, h5⟩ :=
    downsampleObsOne_spec sample hs obvNumThd e0 kv (hobs kv hkv)
  exact ⟨kv, hkv, h1, h2, h3, h4, h5⟩

/-- Claim C6: after `DownsampleVeta` with landmark threshold `lmNumThd` and
observation cap `obvNumThd`, the surviving landmarks are a subset of the
input of size exactly `min (input count) lmNumThd` (a no-op on the landmark
set when the input count is within the threshold), and every surviving
landmark keeps its position and color and a subset of its observations of
size exactly `min (input observation count) obvNumThd`. -/
theorem downsampleVeta_sizes {E : Type} (sample : E → List ℕ → ℕ → List ℕ × E)
    (hs : SamplerSpec sample) (e : E) (struct : List (ℕ × Landmark))
    (lmNumThd obvNumThd : ℕ)
    (hk : (struct.map Prod.fst).Nodup)
    (hobs : ∀ kv ∈ struct, (kv.2.obs.map Prod.fst).Nodup) :
    (downsampleVeta sample e struct lmNumThd obvNumThd).length =
      min struct.length lmNumThd ∧
    ∀ kv' ∈ downsampleVeta sample e struct lmNumThd obvNumThd,
      ∃ kv ∈ struct, kv'.1 = kv.1 ∧ kv'.2.X = kv.2.X ∧
        kv'.2.color = kv.2.color ∧
        (∀ o ∈ kv'.2.obs, o ∈ kv.2.obs) ∧
        kv'.2.obs.length = min kv.2.obs.length obvNumThd := by
  by_cases hL : lmNumThd < struct.length
  · have hkle : struct.length - lmNumThd ≤ (struct.map Prod.fst).length := by
      rw [List.length_map]
      omega
    obtain ⟨hlen, hsub, hnd⟩ :=
      hs e (struct.map Prod.fst) (struct.length - lmNumThd) hkle hk
    have hfl : (struct.filter fun kv =>
        !((sample e (struct.map Prod.fst)
            (struct.length - lmNumThd)).1.contains kv.1)).length =
        lmNumThd := by
      rw [length_filter_key, length_filter_not_contains _ _ hk hnd hsub,
        hlen, List.length_map]
      omega
    constructor
    · simp only [downsampleVeta, if_pos hL]
      rw [downsampleObsAll_length, hfl]
      omega
    · intro kv' h
      simp only [downsampleVeta, if_pos hL] at h
      obtain ⟨kv, hkv, hrest⟩ := downsampleObsAll_spec sample hs obvNumThd _ _
        (fun kv hkv => hobs kv (List.mem_of_mem_filter hkv)) kv' h
      exact ⟨kv, List.mem_of_mem_filter hkv, hrest⟩
  · constructor
    · simp only [downsampleVeta, if_neg hL]
      rw [downsampleObsAll_length]
      omega
    · intro kv' h
      simp only [downsampleVeta, if_neg hL] at h
      exact downsampleObsAll_spec sample hs obvNumThd e struct hobs kv' h

/-- A deterministic instance of the sampling contract: draw the first `k`
elements. -/
def takeSampler (e : Unit) (xs : List ℕ) (k : ℕ) : List ℕ × Unit :=
  (xs.take k, e)

/-- `takeSampler` satisfies the without-replacement contract. -/
lemma takeSampler_spec : SamplerSpec takeSampler := by
  intro e xs k hk hnd
  refine ⟨?_, ?_, ?_⟩
  · simp only [takeSampler, List.length_take]
    omega
  · intro i hi
    exact List.take_subset k xs hi
  · exact List.Nodup.sublist (List.take_sublist k xs) hnd

/-- Two concrete landmarks: landmark 1 with two observations, landmark 2
with one. -/
def exVeta : List (ℕ × Landmark) :=
  [(1, ⟨⟨1, 0, 0⟩, ⟨1, 1, 1⟩, [(10, ⟨0, 0, 0⟩), (11, ⟨1, 1, 1⟩)]⟩),
   (2, ⟨⟨0, 2, 0⟩, ⟨2, 2, 2⟩, [(12, ⟨2, 2, 2⟩)]⟩)]

/-- Witness for `downsampleVeta_sizes`: thresholds 1/1 on the concrete
two-landmark set. -/
theorem downsampleVeta_sizes_witness :
    (downsampleVeta takeSampler () exVeta 1 1).length = min exVeta.length 1 ∧
    ∀ kv' ∈ downsampleVeta takeSampler () exVeta 1 1,
      ∃ kv ∈ exVeta, kv'.1 = kv.1 ∧ kv'.2.X = kv.2.X ∧
        kv'.2.color = kv.2.color ∧
        (∀ o ∈ kv'.2.obs, o ∈ kv.2.obs) ∧
        kv'.2.obs.length = min kv.2.obs.length 1 :=
  downsampleVeta_sizes takeSampler takeSampler_spec () exVeta 1 1
    (by decide)
    (by intro kv hkv
        rcases List.mem_cons.mp hkv with rfl | hkv
        · decide
        · rcases List.mem_cons.mp hkv with rfl | hkv
          · decide
          · simp at hkv)

/-! ## Reconstruction import (`TryLoadSfMData`, part_001 lines 367-511)

The text-file parsing and existence checks return early with `nullptr`; the
fragment embedded here is the view construction and the landmark filter,
which are what claim C5 is about.  Image file names are modelled by their
numeric stem (the files are named `<id>.jpg`). -/

/-- One reconstructed 2D feature (`ColMapDataIO`'s `Point2D`): pixel
coordinates and the cross-referenced point3D id. -/
structure P2D where
  px : ℚ
  py : ℚ
  point3DId : ℕ
  deriving DecidableEq, Repr

/-- One reconstructed image (`ColMapDataIO`'s `Image`): its name and its 2D
feature list. -/
structure ColImage where
  name : ℕ
  points2D : List P2D
  deriving DecidableEq, Repr

/-- One element of a reconstructed track: the observing image and the index
of the feature inside that image. -/
structure TrackEl where
  imageId : ℕ
  point2DIdx : ℕ
  deriving DecidableEq, Repr

/-- One reconstructed 3D point (`ColMapDataIO`'s `Point3D`): position,
color, reprojection error, track. -/
structure P3D where
  xyz : Vec3
  color : Vec3
  err : ℚ
  track : List TrackEl
  deriving DecidableEq, Repr

/-- Lines 440-464: map every reconstructed image back to an internal frame
id through the persisted index (`.at` throws when a name is unknown — the
`none` case) and keep the ids of images that match a retained internal
frame. -/
def buildViews (nameToIdx : List (ℕ × ℕ)) (frames : List ℕ) :
    List (ℕ × ColImage) → Option (List ℕ)
  | [] => some []
  | (_, img) :: rest =>
    Option.bind (nameToIdx.lookup img.name) fun viewId =>
    Option.bind (buildViews nameToIdx frames rest) fun vs =>
    some (if frames.contains viewId then viewId :: vs else vs)

/-- The `std::map::insert` of line 503: insert only when the view id is not
yet present. -/
def insertObs (acc : List (ℕ × Observation)) (k : ℕ) (v : Observation) :
    List (ℕ × Observation) :=
  if (acc.map Prod.fst).contains k then acc else acc ++ [(k, v)]

/-- The track loop of lines 486-504: look up the observing image (`.at`
throws on a missing id) and its 2D feature (`.at` throws on a bad index);
skip observations whose point3D cross-reference conflicts, and observations
of views not retained; collect the rest. -/
def buildObs (images : List (ℕ × ColImage)) (nameToIdx : List (ℕ × ℕ))
    (views : List ℕ) (pt3dId : ℕ) :
    List TrackEl → List (ℕ × Observation) → Option (List (ℕ × Observation))
  | [], acc => some acc
  | tr :: rest, acc =>
    Option.bind (images.lookup tr.imageId) fun img =>
    Option.bind (img.points2D.get? tr.point2DIdx) fun pt2d =>
    if pt3dId ≠ pt2d.point3DId then
      buildObs images nameToIdx views pt3dId rest acc
    else
      Option.bind (nameToIdx.lookup img.name) fun viewId =>
      if views.contains viewId then
        buildObs images nameToIdx views pt3dId rest
          (insertObs acc viewId ⟨pt2d.px, pt2d.py, tr.point2DIdx⟩)
      else buildObs images nameToIdx views pt3dId rest acc

/-- The landmark loop of lines 476-508: drop a point3D whose error exceeds
the threshold or whose raw track is shorter than the minimum; otherwise
collect its surviving observations and keep the landmark exactly when they
still reach the minimum track length. -/
def buildStructure (images : List (ℕ × ColImage)) (nameToIdx : List (ℕ × ℕ))
    (views : List ℕ) (errorThd : ℚ) (trackLenThd : ℕ) :
    List (ℕ × P3D) → Option (List (ℕ × Landmark))
  | [] => some []
  | (ptId, p) :: rest =>
    if p.err > errorThd ∨ p.track.length < trackLenThd then
      buildStructure images nameToIdx views errorThd trackLenThd rest
    else
      Option.bind (buildObs images nameToIdx views ptId p.track []) fun obs =>
      Option.bind
        (buildStructure images nameToIdx views errorThd trackLenThd rest) fun s =>
      some (if obs.length < trackLenThd then s
            else (ptId, ⟨p.xyz, p.color, obs⟩) :: s)

/-- The structure-building fragment of `CalibSolver::TryLoadSfMData`: build
the retained views, then the filtered landmark map. -/
def tryLoadSfMStructure (images : List (ℕ × ColImage))
    (nameToIdx : List (ℕ × ℕ)) (frames : List ℕ) (points3D : List (ℕ × P3D))
    (errorThd : ℚ) (trackLenThd : ℕ) : Option (List (ℕ × Landmark)) :=
  Option.bind (buildViews nameToIdx frames images) fun views =>
  buildStructure images nameToIdx views errorThd trackLenThd points3D

/-- Inserting into the observation map adds at most one entry. -/
lemma insertObs_length_le (acc : List (ℕ × Observation)) (k : ℕ)
    (v : Observation) : (insertObs acc k v).length ≤ acc.length + 1 := by
  unfold insertObs
  split_ifs <;> simp

/-- A surviving observation map has at most one entry per track element. -/
lemma buildObs_length_le (images : List (ℕ × ColImage))
    (nameToIdx : List (ℕ × ℕ)) (views : List ℕ) (pt3dId : ℕ) :
    ∀ (track : List TrackEl) (acc obs : List (ℕ × Observation)),
      buildObs images nameToIdx views pt3dId track acc = some obs →
      obs.length ≤ acc.length + track.length := by
  intro track
  induction track with
  | nil =>
    intro acc obs h
    simp only [buildObs, Option.some.injEq] at h
    subst h
    simp
  | cons tr rest ih =>
    intro acc obs h
    simp only [buildObs, Option.bind_eq_some] at h
    obtain ⟨img, _, h⟩ := h
    obtain ⟨pt2d, _, h⟩ := h
    split_ifs at h with hc
    · have := ih acc obs h
      simp only [List.length_cons]
      omega
    · simp only [Option.bind_eq_some] at h
      obtain ⟨viewId, _, h⟩ := h
      split_ifs at h with hv
      · have := ih _ obs h
        have h2 := insertObs_length_le acc viewId
          ⟨pt2d.px, pt2d.py, tr.point2DIdx⟩
        simp only [List.length_cons]
        omega
      · have := ih acc obs h
        simp only [List.length_cons]
        omega

/-- Every landmark key produced by the landmark loop is a key of the
incoming point3D list. -/
lemma buildStructure_keys (images : List (ℕ × ColImage))
    (nameToIdx : List (ℕ × ℕ)) (views : List ℕ) (errorThd : ℚ)
    (trackLenThd : ℕ) :
    ∀ (pts : List (ℕ × P3D)) (res : List (ℕ × Landmark)),
      buildStructure images nameToIdx views errorThd trackLenThd pts =
        some res →
      ∀ kv ∈ res, kv.1 ∈ pts.map Prod.fst := by
  intro pts
  induction pts with
  | nil =>
    intro res h kv hkv
    simp only [buildStructure, Option.some.injEq] at h
    subst h
    simp at hkv
  | cons qp rest ih =>
    intro res h kv hkv
    obtain ⟨qId, q⟩ := qp
    simp only [buildStructure] at h
    split_ifs at h with hc
    · exact List.mem_cons_of_mem _ (ih res h kv hkv)
    · simp only [Option.bind_eq_some, Option.some.injEq] at h
      obtain ⟨obs, _, s, hs, rfl⟩ := h
      split_ifs at hkv with hlen
      · exact List.mem_cons_of_mem _ (ih s hs kv hkv)
      · rcases List.mem_cons.mp hkv with rfl | hkv
        · simp
        · exact List.mem_cons_of_mem _ (ih s hs kv hkv)

/-- The landmark-filter characterization: a point3D id appears among the
built landmarks exactly when its error is within the threshold and its
surviving observations still reach the minimum track length. -/
lemma buildStructure_mem_iff (images : List (ℕ × ColImage))
    (nameToIdx : List (ℕ × ℕ)) (views : List ℕ) (errorThd : ℚ)
    (trackLenThd : ℕ) :
    ∀ (pts : List (ℕ × P3D)) (res : List (ℕ × Landmark)),
      (pts.map Prod.fst).Nodup →
      buildStructure images nameToIdx views errorThd trackLenThd pts =
        some res →
      ∀ ptId p3d, (ptId, p3d) ∈ pts →
        ((∃ lm, (ptId, lm) ∈ res) ↔
          (p3d.err ≤ errorThd ∧
           ∃ obs, buildObs images nameToIdx views ptId p3d.track [] =
               some obs ∧ trackLenThd ≤ obs.length)) := by
  intro pts
  induction pts with
  | nil =>
    intro res _ h ptId p3d hmem
    simp at hmem
  | cons qp rest ih =>
    intro res hnd h ptId p3d hmem
    obtain ⟨qId, q⟩ := qp
    rw [List.map_cons, List.nodup_cons] at hnd
    obtain ⟨hqnotin, hndr⟩ := hnd
    simp only [buildStructure] at h
    split_ifs at h with hc
    · rcases List.mem_cons.mp hmem with heq | hmem2
      · obtain ⟨rfl, rfl⟩ := Prod.mk.injEq .. ▸ And.intro
          (congrArg Prod.fst heq) (congrArg Prod.snd heq)
        constructor
        · rintro ⟨lm, hlm⟩
          exact absurd
            (buildStructure_keys images nameToIdx views errorThd trackLenThd
              rest res h _ hlm) hqnotin
        · rintro ⟨herr, obs, hobs, hlen⟩
          rcases hc with hc | hc
          · exact absurd herr (not_le.mpr hc)
          · have := buildObs_length_le images nameToIdx views ptId
              p3d.track [] obs hobs
            simp only [List.length_nil] at this
            omega
      · exact ih res hndr h ptId p3d hmem2
    · push_neg at hc
      obtain ⟨herrq, htrkq⟩ := hc
      simp only [Option.bind_eq_some, Option.some.injEq] at h
      obtain ⟨obs, hobs, s, hs, rfl⟩ := h
      rcases List.mem_cons.mp hmem with heq | hmem2
      · obtain ⟨rfl, rfl⟩ := Prod.mk.injEq .. ▸ And.intro
          (congrArg Prod.fst heq) (congrArg Prod.snd heq)
        constructor
        · rintro ⟨lm, hlm⟩
          split_ifs at hlm with hlen
          · exact absurd
              (buildStructure_keys images nameToIdx views errorThd trackLenThd
                rest s hs _ hlm) hqnotin
          · exact ⟨herrq, obs, hobs, not_lt.mp hlen⟩
        · rintro ⟨herr, obs2, hobs2, hlen2⟩
          rw [hobs] at hobs2
          injection hobs2 with hoo
          subst hoo
          rw [if_neg (not_lt.mpr hlen2)]
          exact ⟨⟨p3d.xyz, p3d.color, obs⟩, List.mem_cons_self _ _⟩
      · have hne : ptId ≠ qId := by
          rintro rfl
          exact hqnotin (List.mem_map.mpr ⟨(ptId, p3d), hmem2, rfl⟩)
        have hiff := ih s hndr hs ptId p3d hmem2
        split_ifs with hlen
        · exact hiff
        · constructor
          · rintro ⟨lm, hlm⟩
            rcases List.mem_cons.mp hlm with heq2 | h2
            · exact absurd (congrArg Prod.fst heq2) hne
            · exact hiff.mp ⟨lm, h2⟩
          · intro hr
            obtain ⟨lm, hlm⟩ := hiff.mpr hr
            exact ⟨lm, List.mem_cons_of_mem _ hlm⟩

/-- Claim C5: a landmark appears in the structure built by `TryLoadSfMData`
if and only if its reprojection error does not exceed the threshold and its
surviving observation count — after discarding observations of images not
mapped to retained frames and observations with conflicting point3D
cross-references — reaches the minimum track length; violating either
condition alone excludes the landmark. -/
theorem tryLoadSfMData_landmark_filter (images : List (ℕ × ColImage))
    (nameToIdx : List (ℕ × ℕ)) (frames : List ℕ) (points3D : List (ℕ × P3D))
    (errorThd : ℚ) (trackLenThd : ℕ) (res : List (ℕ × Landmark))
    (views : List ℕ)
    (hv : buildViews nameToIdx frames images = some views)
    (h : tryLoadSfMStructure images nameToIdx frames points3D errorThd
      trackLenThd = some res)
    (hnd : (points3D.map Prod.fst).Nodup) :
    ∀ ptId p3d, (ptId, p3d) ∈ points3D →
      ((∃ lm, (ptId, lm) ∈ res) ↔
        (p3d.err ≤ errorThd ∧
         ∃ obs, buildObs images nameToIdx views ptId p3d.track [] = some obs ∧
           trackLenThd ≤ obs.length)) := by
  have h2 : buildStructure images nameToIdx views errorThd trackLenThd
      points3D = some res := by
    simp only [tryLoadSfMStructure, hv, Option.some_bind] at h
    exact h
  exact buildStructure_mem_iff images nameToIdx views errorThd trackLenThd
    points3D res hnd h2

/-- Three reconstructed images named 1, 2, 3 (ids 11, 12, 13); the 2D
features of pt-id-7 cross-reference landmark 7. -/
def exImages : List (ℕ × ColImage) :=
  [(11, ⟨1, [⟨0, 0, 7⟩, ⟨1, 1, 8⟩]⟩),
   (12, ⟨2, [⟨2, 2, 7⟩]⟩),
   (13, ⟨3, [⟨3, 3, 7⟩]⟩)]

/-- The persisted name-to-frame index; name 3 maps to a frame that is not
retained. -/
def exNameToIdx : List (ℕ × ℕ) := [(1, 100), (2, 101), (3, 102)]

/-- The retained internal frame ids. -/
def exFrames : List ℕ := [100, 101]

/-- Three landmarks: 7 is good; 8 has an excessive error but a fine track;
9 has a fine error and raw track length but only conflicting
cross-references. -/
def exPoints3D : List (ℕ × P3D) :=
  [(7, ⟨⟨0, 0, 0⟩, ⟨0, 0, 0⟩, 1, [⟨11, 0⟩, ⟨12, 0⟩, ⟨13, 0⟩]⟩),
   (8, ⟨⟨0, 0, 0⟩, ⟨0, 0, 0⟩, 5, [⟨11, 1⟩, ⟨12, 0⟩]⟩),
   (9, ⟨⟨0, 0, 0⟩, ⟨0, 0, 0⟩, 1, [⟨11, 0⟩, ⟨12, 0⟩]⟩)]

/-- The structure built from the concrete data with error threshold 2 and
minimum track length 2: only landmark 7 survives, with its two retained
observations. -/
def exSfMRes : List (ℕ × Landmark) :=
  [(7, ⟨⟨0, 0, 0⟩, ⟨0, 0, 0⟩, [(100, ⟨0, 0, 0⟩), (101, ⟨2, 2, 0⟩)]⟩)]

/-- Witness for `tryLoadSfMData_landmark_filter`: landmark 7 is kept, 8 is
excluded by its error alone, 9 by its surviving-observation count alone. -/
theorem tryLoadSfMData_landmark_filter_witness :
    (∃ lm, (7, lm) ∈ exSfMRes) ∧ (¬ ∃ lm, (8, lm) ∈ exSfMRes) ∧
      (¬ ∃ lm, (9, lm) ∈ exSfMRes) := by
  have hv : buildViews exNameToIdx exFrames exImages = some [100, 101] := by
    decide
  have h : tryLoadSfMStructure exImages exNameToIdx exFrames exPoints3D 2 2 =
      some exSfMRes := by decide
  have hiff := tryLoadSfMData_landmark_filter exImages exNameToIdx exFrames
    exPoints3D 2 2 exSfMRes [100, 101] hv h (by decide)
  refine ⟨?_, ?_, ?_⟩
  · refine (hiff 7 ⟨⟨0, 0, 0⟩, ⟨0, 0, 0⟩, 1, [⟨11, 0⟩, ⟨12, 0⟩, ⟨13, 0⟩]⟩
      (by decide)).mpr ⟨by decide, [(100, ⟨0, 0, 0⟩), (101, ⟨2, 2, 0⟩)],
      by decide, by decide⟩
  · rintro hex
    obtain ⟨h58, -⟩ := (hiff 8 ⟨⟨0, 0, 0⟩, ⟨0, 0, 0⟩, 5, [⟨11, 1⟩, ⟨12, 0⟩]⟩
      (by decide)).mp hex
    revert h58
    decide
  · rintro hex
    obtain ⟨-, obs, hobs, hlen⟩ :=
      (hiff 9 ⟨⟨0, 0, 0⟩, ⟨0, 0, 0⟩, 1, [⟨11, 0⟩, ⟨12, 0⟩]⟩ (by decide)).mp hex
    rw [show buildObs exImages exNameToIdx [100, 101] 9
        [⟨11, 0⟩, ⟨12, 0⟩] [] = some [] from by decide] at hobs
    injection hobs with hoo
    subst hoo
    revert hlen
    decide

end IKalibr
